import Mathlib

/-!
Verification of `meta/src/hummock/level_handler.rs`: the `LevelHandler`
state machine for one level of the LSM tree, with its three task-lifecycle
operations `clear_compacting_range`, `unassign_task` and `pop_task_input`.

The Rust code mutates `&mut self`; here each operation is embedded as a pure
function from the handler state (and the task id) to the new state, returning
the output value alongside where the Rust method returns one.
-/

namespace Hummock

/-- Modelled from the spec: `KeyRange` (from `risingwave_storage::hummock::key_range`,
not part of the provided sources) is an immutable, opaque, comparable value type —
an inclusive/exclusive byte-range boundary pair.  Bytes are represented as `Nat`s. -/
structure KeyRange where
  left : List Nat
  right : List Nat
deriving DecidableEq, Repr

/-- `TableStat`: metadata for one SST at a level — key range, identity, and the id of
the compaction task currently claiming it (if any).  `u64` ids are embedded as `Nat`. -/
structure TableStat where
  key_range : KeyRange
  table_id : Nat
  compact_task : Option Nat
deriving DecidableEq, Repr

/-- `LevelHandler`: the state machine for one level.  Each variant carries the
resident tables and the pending `(KeyRange, task_id)` compaction output ranges. -/
inductive LevelHandler where
  | Nonoverlapping (tables : List TableStat) (compacting_key_ranges : List (KeyRange × Nat))
  | Overlapping (tables : List TableStat) (compacting_key_ranges : List (KeyRange × Nat))
deriving DecidableEq, Repr

namespace LevelHandler

/-- The `tables` vector carried by either variant. -/
def tables : LevelHandler → List TableStat
  | .Nonoverlapping l_n _ => l_n
  | .Overlapping l_n _ => l_n

/-- The `pending_output_ranges` vector carried by either variant. -/
def pending_output_ranges : LevelHandler → List (KeyRange × Nat)
  | .Nonoverlapping _ r => r
  | .Overlapping _ r => r

/-- The variant tag, `true` for `Overlapping`. -/
def isOverlapping : LevelHandler → Bool
  | .Nonoverlapping _ _ => false
  | .Overlapping _ _ => true

/-- `LevelHandler::clear_compacting_range`: retain in `compacting_key_ranges`
exactly the entries whose task id differs from `clear_task_id`; either variant
is handled by the same code (the Rust uses an or-pattern over both variants). -/
def clear_compacting_range : LevelHandler → Nat → LevelHandler
  | .Overlapping l_n compacting_key_ranges, clear_task_id =>
      .Overlapping l_n (compacting_key_ranges.filter (fun p => p.2 != clear_task_id))
  | .Nonoverlapping l_n compacting_key_ranges, clear_task_id =>
      .Nonoverlapping l_n (compacting_key_ranges.filter (fun p => p.2 != clear_task_id))

/-- The per-table step of `unassign_task`: if the table's `compact_task` equals
`Some(unassign_task_id)`, reset it to `None`, else leave the table unchanged. -/
def unassignStat (unassign_task_id : Nat) (s : TableStat) : TableStat :=
  if s.compact_task = some unassign_task_id then { s with compact_task := none } else s

/-- `LevelHandler::unassign_task`: first `clear_compacting_range`, then reset
`compact_task` to `None` on every table claimed by `unassign_task_id`. -/
def unassign_task (h : LevelHandler) (unassign_task_id : Nat) : LevelHandler :=
  match h.clear_compacting_range unassign_task_id with
  | .Overlapping l_n r => .Overlapping (l_n.map (unassignStat unassign_task_id)) r
  | .Nonoverlapping l_n r => .Nonoverlapping (l_n.map (unassignStat unassign_task_id)) r

/-- `LevelHandler::pop_task_input`: first `clear_compacting_range`, then
`retain` in `tables` the entries whose `compact_task` differs from
`Some(finished_task_id)`, pushing the deleted `table_id`s (in traversal order,
i.e. their original order) onto the returned vector. -/
def pop_task_input (h : LevelHandler) (finished_task_id : Nat) :
    List Nat × LevelHandler :=
  match h.clear_compacting_range finished_task_id with
  | .Overlapping l_n r =>
      ((l_n.filter (fun s => s.compact_task == some finished_task_id)).map TableStat.table_id,
       .Overlapping (l_n.filter (fun s => s.compact_task != some finished_task_id)) r)
  | .Nonoverlapping l_n r =>
      ((l_n.filter (fun s => s.compact_task == some finished_task_id)).map TableStat.table_id,
       .Nonoverlapping (l_n.filter (fun s => s.compact_task != some finished_task_id)) r)

end LevelHandler

/-- A concrete key range used by the scenario checks. -/
def kr (a b : Nat) : KeyRange := ⟨[a], [b]⟩

-- Scenario A of the spec: pop_task_input(5) returns [1], leaves table 2, clears ranges.
example :
    (LevelHandler.pop_task_input
      (.Nonoverlapping
        [⟨kr 0 10, 1, some 5⟩, ⟨kr 10 20, 2, none⟩]
        [(kr 0 10, 5)]) 5) =
    ([1], .Nonoverlapping [⟨kr 10 20, 2, none⟩] []) := by decide

-- Scenario B: unassign_task(7) resets both claims, clears the pending range.
example :
    (LevelHandler.unassign_task
      (.Overlapping
        [⟨kr 0 10, 1, some 7⟩, ⟨kr 10 20, 2, some 7⟩]
        [(kr 0 20, 7)]) 7) =
    .Overlapping [⟨kr 0 10, 1, none⟩, ⟨kr 10 20, 2, none⟩] [] := by decide

-- Scenario C: unassign_task(99) where 99 was never assigned is a no-op.
example :
    (LevelHandler.unassign_task
      (.Nonoverlapping [⟨kr 0 10, 1, none⟩, ⟨kr 10 20, 2, some 5⟩] [(kr 0 10, 5)]) 99) =
    .Nonoverlapping [⟨kr 0 10, 1, none⟩, ⟨kr 10 20, 2, some 5⟩] [(kr 0 10, 5)] := by decide

/-! ### Accessor lemmas: the operations described through `tables` / `pending_output_ranges` -/

namespace LevelHandler

theorem clear_tables (h : LevelHandler) (t : Nat) :
    (h.clear_compacting_range t).tables = h.tables := by
  cases h <;> rfl

theorem clear_ranges (h : LevelHandler) (t : Nat) :
    (h.clear_compacting_range t).pending_output_ranges =
      h.pending_output_ranges.filter (fun p => p.2 != t) := by
  cases h <;> rfl

theorem clear_isOverlapping (h : LevelHandler) (t : Nat) :
    (h.clear_compacting_range t).isOverlapping = h.isOverlapping := by
  cases h <;> rfl

theorem unassign_tables (h : LevelHandler) (t : Nat) :
    (h.unassign_task t).tables = h.tables.map (unassignStat t) := by
  cases h <;> rfl

theorem unassign_ranges (h : LevelHandler) (t : Nat) :
    (h.unassign_task t).pending_output_ranges =
      h.pending_output_ranges.filter (fun p => p.2 != t) := by
  cases h <;> rfl

theorem unassign_isOverlapping (h : LevelHandler) (t : Nat) :
    (h.unassign_task t).isOverlapping = h.isOverlapping := by
  cases h <;> rfl

theorem pop_fst (h : LevelHandler) (t : Nat) :
    (h.pop_task_input t).1 =
      (h.tables.filter (fun s => s.compact_task == some t)).map TableStat.table_id := by
  cases h <;> rfl

theorem pop_tables (h : LevelHandler) (t : Nat) :
    (h.pop_task_input t).2.tables =
      h.tables.filter (fun s => s.compact_task != some t) := by
  cases h <;> rfl

theorem pop_ranges (h : LevelHandler) (t : Nat) :
    (h.pop_task_input t).2.pending_output_ranges =
      h.pending_output_ranges.filter (fun p => p.2 != t) := by
  cases h <;> rfl

theorem pop_isOverlapping (h : LevelHandler) (t : Nat) :
    (h.pop_task_input t).2.isOverlapping = h.isOverlapping := by
  cases h <;> rfl

theorem unassignStat_table_id (t : Nat) (s : TableStat) :
    (unassignStat t s).table_id = s.table_id := by
  unfold unassignStat; split <;> rfl

theorem unassignStat_key_range (t : Nat) (s : TableStat) :
    (unassignStat t s).key_range = s.key_range := by
  unfold unassignStat; split <;> rfl

theorem unassignStat_not_claimed (t : Nat) (s : TableStat) :
    ((unassignStat t s).compact_task != some t) = true := by
  unfold unassignStat
  split
  · simp
  · simp only [bne_iff_ne, ne_eq]
    assumption

end LevelHandler

open LevelHandler in
/-- C1: after `pop_task_input(t)`, no remaining `TableStat` in `tables` has
`compact_task == Some(t)` and no entry in `pending_output_ranges` has task id `t`,
for either variant of the handler. -/
theorem pop_task_input_clears_task (h : LevelHandler) (t : Nat) :
    ((h.pop_task_input t).2.tables.all (fun s => s.compact_task != some t)) = true ∧
    ((h.pop_task_input t).2.pending_output_ranges.all (fun p => p.2 != t)) = true := by
  rw [pop_tables, pop_ranges]
  constructor
  · exact List.all_eq_true.2 fun s hs => (List.mem_filter.1 hs).2
  · exact List.all_eq_true.2 fun p hp => (List.mem_filter.1 hp).2

open LevelHandler in
/-- C3: after `unassign_task(t)`, no `TableStat` has `compact_task == Some(t)` and no
pending range is owned by `t`, while the number of tables is unchanged and every table
keeps its `table_id` and `key_range` in place (nothing is removed). -/
theorem unassign_task_releases (h : LevelHandler) (t : Nat) :
    ((h.unassign_task t).tables.all (fun s => s.compact_task != some t)) = true ∧
    ((h.unassign_task t).pending_output_ranges.all (fun p => p.2 != t)) = true ∧
    (h.unassign_task t).tables.length = h.tables.length ∧
    (h.unassign_task t).tables.map TableStat.table_id = h.tables.map TableStat.table_id ∧
    (h.unassign_task t).tables.map TableStat.key_range =
      h.tables.map TableStat.key_range := by
  rw [unassign_tables, unassign_ranges]
  refine ⟨?_, ?_, ?_, ?_, ?_⟩
  · exact List.all_eq_true.2 fun s hs => by
      obtain ⟨s₀, _, rfl⟩ := List.mem_map.1 hs
      exact unassignStat_not_claimed t s₀
  · exact List.all_eq_true.2 fun p hp => (List.mem_filter.1 hp).2
  · exact List.length_map _ _
  · rw [List.map_map]
    exact List.map_congr_left fun s _ => unassignStat_table_id t s
  · rw [List.map_map]
    exact List.map_congr_left fun s _ => unassignStat_key_range t s

open LevelHandler in
/-- C10: every operation preserves the handler's variant tag: a `Nonoverlapping`
handler stays `Nonoverlapping` and an `Overlapping` one stays `Overlapping` after
`unassign_task`, `pop_task_input`, or `clear_compacting_range`. -/
theorem operations_preserve_variant (h : LevelHandler) (t : Nat) :
    (h.unassign_task t).isOverlapping = h.isOverlapping ∧
    (h.pop_task_input t).2.isOverlapping = h.isOverlapping ∧
    (h.clear_compacting_range t).isOverlapping = h.isOverlapping :=
  ⟨unassign_isOverlapping h t, pop_isOverlapping h t, clear_isOverlapping h t⟩

open LevelHandler in
/-- C7: the lifecycle operations are variant-uniform: on the same contents
`(tables, pending_output_ranges)`, `unassign_task` and `pop_task_input` produce the
same resulting contents (and the same returned ids) for both variants. -/
theorem lifecycle_variant_uniform (tbls : List TableStat)
    (rngs : List (KeyRange × Nat)) (t : Nat) :
    ((LevelHandler.Nonoverlapping tbls rngs).unassign_task t).tables =
      ((LevelHandler.Overlapping tbls rngs).unassign_task t).tables ∧
    ((LevelHandler.Nonoverlapping tbls rngs).unassign_task t).pending_output_ranges =
      ((LevelHandler.Overlapping tbls rngs).unassign_task t).pending_output_ranges ∧
    ((LevelHandler.Nonoverlapping tbls rngs).pop_task_input t).1 =
      ((LevelHandler.Overlapping tbls rngs).pop_task_input t).1 ∧
    ((LevelHandler.Nonoverlapping tbls rngs).pop_task_input t).2.tables =
      ((LevelHandler.Overlapping tbls rngs).pop_task_input t).2.tables ∧
    ((LevelHandler.Nonoverlapping tbls rngs).pop_task_input t).2.pending_output_ranges =
      ((LevelHandler.Overlapping tbls rngs).pop_task_input t).2.pending_output_ranges :=
  ⟨rfl, rfl, rfl, rfl, rfl⟩

theorem filter_idem {α : Type} (p : α → Bool) (l : List α) :
    (l.filter p).filter p = l.filter p :=
  List.filter_eq_self.2 fun _ ha => (List.mem_filter.1 ha).2

open LevelHandler in
/-- C5: calling `pop_task_input(t)` a second time immediately after a first call with
the same `t` returns the empty sequence and leaves the handler exactly as it was
after the first call. -/
theorem pop_task_input_idempotent (h : LevelHandler) (t : Nat) :
    ((h.pop_task_input t).2.pop_task_input t).1 = [] ∧
    ((h.pop_task_input t).2.pop_task_input t).2 = (h.pop_task_input t).2 := by
  cases h <;>
  · simp only [pop_task_input, clear_compacting_range, filter_idem]
    constructor
    · rw [List.filter_eq_nil_iff.2 fun s hs => ?_]
      · rfl
      · have := (List.mem_filter.1 hs).2
        simp only [bne_iff_ne, ne_eq] at this
        simpa using this
    · trivial

open LevelHandler in
/-- C9: `pop_task_input(t)` returns the removed `table_id`s in the order the tables
occurred in `tables` before the call (the result is exactly the claimed tables'
ids, in place, and an order-preserving subsequence of the original id sequence),
and the retained tables form an order-preserving subsequence of the originals,
each kept with all fields unchanged. -/
theorem pop_task_input_preserves_order (h : LevelHandler) (t : Nat) :
    List.Sublist (h.pop_task_input t).2.tables h.tables ∧
    List.Sublist (h.pop_task_input t).1 (h.tables.map TableStat.table_id) ∧
    (h.pop_task_input t).1 =
      (h.tables.filter (fun s => s.compact_task == some t)).map TableStat.table_id := by
  refine ⟨?_, ?_, pop_fst h t⟩
  · rw [pop_tables]; exact List.filter_sublist _
  · rw [pop_fst]; exact (List.filter_sublist _).map _

open LevelHandler in
/-- C2: `pop_task_input(t)` returns exactly the `table_id`s of the tables claimed by
`t` immediately before the call; it returns the empty sequence when no table is
claimed by `t`; and under the data-model invariant that table ids are unique at a
level, the result has no duplicates and no returned id belongs to a table claimed
by a different task. -/
theorem pop_task_input_returns_claimed (h : LevelHandler) (t : Nat) :
    (h.pop_task_input t).1 =
      (h.tables.filter (fun s => s.compact_task == some t)).map TableStat.table_id ∧
    ((h.tables.all (fun s => s.compact_task != some t)) = true →
      (h.pop_task_input t).1 = []) ∧
    ((h.tables.map TableStat.table_id).Nodup →
      (h.pop_task_input t).1.Nodup ∧
      ∀ i ∈ (h.pop_task_input t).1, ∀ s ∈ h.tables,
        s.table_id = i → s.compact_task = some t) := by
  refine ⟨pop_fst h t, ?_, ?_⟩
  · intro hall
    rw [pop_fst, List.filter_eq_nil_iff.2 fun s hs => ?_]
    · rfl
    · have := List.all_eq_true.1 hall s hs
      simp only [bne_iff_ne, ne_eq] at this
      simpa using this
  · intro hnd
    constructor
    · rw [pop_fst]
      exact List.Nodup.sublist ((List.filter_sublist _).map _) hnd
    · intro i hi s hs hid
      rw [pop_fst] at hi
      obtain ⟨s', hs', rfl⟩ := List.mem_map.1 hi
      have hs'm := List.mem_filter.1 hs'
      have heq : s = s' :=
        List.inj_on_of_nodup_map hnd hs hs'm.1 hid
      rw [heq]
      simpa using hs'm.2

open LevelHandler in
/-- Witness for C2 at a concrete handler (Scenario A shape): the returned ids are
duplicate-free, the lone returned id belongs to the table claimed by task 5, and a
handler with no table claimed by task 7 returns the empty sequence. -/
theorem pop_task_input_returns_claimed_witness :
    ((LevelHandler.Nonoverlapping
        [⟨kr 0 10, 1, some 5⟩, ⟨kr 10 20, 2, none⟩] [(kr 0 10, 5)]).pop_task_input 5).1.Nodup ∧
    (⟨kr 0 10, 1, some 5⟩ : TableStat).compact_task = some 5 ∧
    ((LevelHandler.Overlapping [⟨kr 0 10, 1, none⟩] []).pop_task_input 7).1 = [] :=
  ⟨((pop_task_input_returns_claimed
      (.Nonoverlapping [⟨kr 0 10, 1, some 5⟩, ⟨kr 10 20, 2, none⟩] [(kr 0 10, 5)]) 5).2.2
      (by decide)).1,
   ((pop_task_input_returns_claimed
      (.Nonoverlapping [⟨kr 0 10, 1, some 5⟩, ⟨kr 10 20, 2, none⟩] [(kr 0 10, 5)]) 5).2.2
      (by decide)).2 1 (by decide) ⟨kr 0 10, 1, some 5⟩ (by decide) rfl,
   (pop_task_input_returns_claimed
      (.Overlapping [⟨kr 0 10, 1, none⟩] []) 7).2.1 (by decide)⟩

open LevelHandler in
/-- C4: when no table is claimed by `t` and no pending range is owned by `t`,
`unassign_task(t)` leaves the handler exactly unchanged (idempotent no-op,
never an error). -/
theorem unassign_task_noop (h : LevelHandler) (t : Nat)
    (h₁ : (h.tables.all (fun s => s.compact_task != some t)) = true)
    (h₂ : (h.pending_output_ranges.all (fun p => p.2 != t)) = true) :
    h.unassign_task t = h := by
  have hm : h.tables.map (unassignStat t) = h.tables := by
    have hid : ∀ s ∈ h.tables, unassignStat t s = id s := by
      intro s hs
      have := List.all_eq_true.1 h₁ s hs
      simp only [bne_iff_ne, ne_eq] at this
      unfold unassignStat
      rw [if_neg this]
      rfl
    rw [List.map_congr_left hid, List.map_id]
  have hf : h.pending_output_ranges.filter (fun p => p.2 != t) =
      h.pending_output_ranges :=
    List.filter_eq_self.2 fun p hp => List.all_eq_true.1 h₂ p hp
  cases h with
  | Nonoverlapping l r =>
      simp only [unassign_task, clear_compacting_range]
      rw [show (r.filter fun p => p.2 != t) = r from hf,
        show l.map (unassignStat t) = l from hm]
  | Overlapping l r =>
      simp only [unassign_task, clear_compacting_range]
      rw [show (r.filter fun p => p.2 != t) = r from hf,
        show l.map (unassignStat t) = l from hm]

open LevelHandler in
/-- Witness for C4 (Scenario C): `unassign_task(99)` on a level where task 99 was
never assigned leaves the handler unchanged. -/
theorem unassign_task_noop_witness :
    (LevelHandler.Nonoverlapping
        [⟨kr 0 10, 1, none⟩, ⟨kr 10 20, 2, some 5⟩] [(kr 0 10, 5)]).unassign_task 99 =
      .Nonoverlapping [⟨kr 0 10, 1, none⟩, ⟨kr 10 20, 2, some 5⟩] [(kr 0 10, 5)] :=
  unassign_task_noop
    (.Nonoverlapping [⟨kr 0 10, 1, none⟩, ⟨kr 10 20, 2, some 5⟩] [(kr 0 10, 5)]) 99
    (by decide) (by decide)

open LevelHandler in
/-- C6: `clear_compacting_range(t)` removes every pending entry with task id `t` and
no other entry (counts of all other entries are preserved and the survivors keep
their order), never touches `tables`, is a no-op when nothing matches (the
idempotence equation below applied to an already-cleared handler), and is
idempotent. -/
theorem clear_compacting_range_spec (h : LevelHandler) (t : Nat) :
    (h.clear_compacting_range t).tables = h.tables ∧
    (∀ p ∈ (h.clear_compacting_range t).pending_output_ranges, p.2 ≠ t) ∧
    (∀ p : KeyRange × Nat, p.2 ≠ t →
      (h.clear_compacting_range t).pending_output_ranges.count p =
        h.pending_output_ranges.count p) ∧
    List.Sublist (h.clear_compacting_range t).pending_output_ranges
      h.pending_output_ranges ∧
    (h.clear_compacting_range t).clear_compacting_range t =
      h.clear_compacting_range t := by
  refine ⟨clear_tables h t, ?_, ?_, ?_, ?_⟩
  · intro p hp
    rw [clear_ranges] at hp
    simpa using (List.mem_filter.1 hp).2
  · intro p hp
    rw [clear_ranges]
    exact List.count_filter (by simpa using hp)
  · rw [clear_ranges]; exact List.filter_sublist _
  · cases h <;>
    · simp only [clear_compacting_range, filter_idem]

open LevelHandler in
/-- Witness for C6 at a concrete handler: the surviving entry owned by task 3 is not
owned by task 5, and its multiplicity is preserved by `clear_compacting_range(5)`. -/
theorem clear_compacting_range_spec_witness :
    ((kr 5 9, 3) : KeyRange × Nat).2 ≠ 5 ∧
    ((LevelHandler.Overlapping [] [(kr 0 10, 5), (kr 5 9, 3)]).clear_compacting_range 5
        ).pending_output_ranges.count (kr 5 9, 3) =
      ([(kr 0 10, 5), (kr 5 9, 3)] : List (KeyRange × Nat)).count (kr 5 9, 3) :=
  ⟨by decide,
   (clear_compacting_range_spec (.Overlapping [] [(kr 0 10, 5), (kr 5 9, 3)]) 5).2.2.1
     (kr 5 9, 3) (by decide)⟩

/-! ### Serialization model (claim C8)

The Rust type carries `#[derive(Serialize, Deserialize)]`; the generated code is
not part of the provided sources, so the serialized form is modelled from the
spec below. -/

/-- Modelled from the spec: a generic self-describing data value, standing for the
serde data model the derived `Serialize`/`Deserialize` implementations target
(sequences, integers, options, and externally tagged enum variants). -/
inductive Value where
  | vnat (n : Nat)
  | vsome (v : Value)
  | vnone
  | arr (vs : List Value)
  | variant (tag : String) (v : Value)

/-- Modelled from the spec: a byte string serializes as a sequence of its bytes. -/
def serialize_bytes (bs : List Nat) : Value :=
  .arr (bs.map .vnat)

/-- Modelled from the spec: a `KeyRange` serializes as its boundary pair, in field
order. -/
def serialize_key_range (k : KeyRange) : Value :=
  .arr [serialize_bytes k.left, serialize_bytes k.right]

/-- Modelled from the spec: a `TableStat` serializes as its three fields in
declaration order, with `Option` serialized as none/some. -/
def serialize_table_stat (s : TableStat) : Value :=
  .arr [serialize_key_range s.key_range, .vnat s.table_id,
    match s.compact_task with
    | none => .vnone
    | some n => .vsome (.vnat n)]

/-- Modelled from the spec: a pending `(KeyRange, u64)` entry serializes as a
two-element sequence. -/
def serialize_range_entry (p : KeyRange × Nat) : Value :=
  .arr [serialize_key_range p.1, .vnat p.2]

/-- Modelled from the spec: a `LevelHandler` serializes as an externally tagged
variant (tag = the variant's name) carrying both vectors in field order. -/
def serialize_level_handler : LevelHandler → Value
  | .Nonoverlapping l r =>
      .variant "Nonoverlapping"
        (.arr [.arr (l.map serialize_table_stat), .arr (r.map serialize_range_entry)])
  | .Overlapping l r =>
      .variant "Overlapping"
        (.arr [.arr (l.map serialize_table_stat), .arr (r.map serialize_range_entry)])

/-- Modelled from the spec: deserialize an integer. -/
def deserialize_nat : Value → Option Nat
  | .vnat n => some n
  | _ => none

/-- Modelled from the spec: deserialize a homogeneous sequence element-wise,
failing if any element fails. -/
def deserialize_list {α : Type} (g : Value → Option α) : List Value → Option (List α)
  | [] => some []
  | v :: vs => do
      let a ← g v
      let as ← deserialize_list g vs
      some (a :: as)

/-- Modelled from the spec: deserialize a byte string. -/
def deserialize_bytes : Value → Option (List Nat)
  | .arr vs => deserialize_list deserialize_nat vs
  | _ => none

/-- Modelled from the spec: deserialize a `KeyRange`. -/
def deserialize_key_range : Value → Option KeyRange
  | .arr [l, r] => do
      let a ← deserialize_bytes l
      let b ← deserialize_bytes r
      some ⟨a, b⟩
  | _ => none

/-- Modelled from the spec: deserialize an optional task id. -/
def deserialize_task_opt : Value → Option (Option Nat)
  | .vnone => some none
  | .vsome v => (deserialize_nat v).map some
  | _ => none

/-- Modelled from the spec: deserialize a `TableStat`. -/
def deserialize_table_stat : Value → Option TableStat
  | .arr [k, i, c] => do
      let kr ← deserialize_key_range k
      let id ← deserialize_nat i
      let ct ← deserialize_task_opt c
      some ⟨kr, id, ct⟩
  | _ => none

/-- Modelled from the spec: deserialize a pending `(KeyRange, u64)` entry. -/
def deserialize_range_entry : Value → Option (KeyRange × Nat)
  | .arr [k, t] => do
      let kr ← deserialize_key_range k
      let tid ← deserialize_nat t
      some (kr, tid)
  | _ => none

/-- Modelled from the spec: deserialize a `LevelHandler`, dispatching on the
variant tag. -/
def deserialize_level_handler : Value → Option LevelHandler
  | .variant tag (.arr [.arr ts, .arr rs]) => do
      let l ← deserialize_list deserialize_table_stat ts
      let r ← deserialize_list deserialize_range_entry rs
      if tag = "Nonoverlapping" then some (.Nonoverlapping l r)
      else if tag = "Overlapping" then some (.Overlapping l r)
      else none
  | _ => none

theorem deserialize_list_map_roundtrip {α : Type} (f : α → Value) (g : Value → Option α)
    (hfg : ∀ a, g (f a) = some a) (l : List α) :
    deserialize_list g (l.map f) = some l := by
  induction l with
  | nil => rfl
  | cons a l ih =>
      simp [deserialize_list, hfg, ih]

theorem deserialize_bytes_roundtrip (bs : List Nat) :
    deserialize_bytes (serialize_bytes bs) = some bs := by
  simp [serialize_bytes, deserialize_bytes,
    deserialize_list_map_roundtrip Value.vnat deserialize_nat (fun _ => rfl)]

theorem deserialize_key_range_roundtrip (k : KeyRange) :
    deserialize_key_range (serialize_key_range k) = some k := by
  simp [serialize_key_range, deserialize_key_range, deserialize_bytes_roundtrip]

theorem deserialize_table_stat_roundtrip (s : TableStat) :
    deserialize_table_stat (serialize_table_stat s) = some s := by
  obtain ⟨k, i, c⟩ := s
  cases c <;>
    simp [serialize_table_stat, deserialize_table_stat, deserialize_task_opt,
      deserialize_nat, deserialize_key_range_roundtrip]

theorem deserialize_range_entry_roundtrip (p : KeyRange × Nat) :
    deserialize_range_entry (serialize_range_entry p) = some p := by
  simp [serialize_range_entry, deserialize_range_entry, deserialize_nat,
    deserialize_key_range_roundtrip]

/-- C8: serializing a `LevelHandler` of either variant, with arbitrary tables and
pending ranges, and deserializing the result yields the original value (variant
tag, field order, and both vectors round-trip losslessly). -/
theorem level_handler_roundtrip (h : LevelHandler) :
    deserialize_level_handler (serialize_level_handler h) = some h := by
  cases h with
  | Nonoverlapping l r =>
      simp [serialize_level_handler, deserialize_level_handler,
        deserialize_list_map_roundtrip _ _ deserialize_table_stat_roundtrip,
        deserialize_list_map_roundtrip _ _ deserialize_range_entry_roundtrip]
  | Overlapping l r =>
      simp [serialize_level_handler, deserialize_level_handler,
        deserialize_list_map_roundtrip _ _ deserialize_table_stat_roundtrip,
        deserialize_list_map_roundtrip _ _ deserialize_range_entry_roundtrip]

end Hummock
